import Mathlib

/-!
Shallow embedding of the Bargain market-data core
(`src/data_controller/`): reliability primitives, event bus, controller
dispatch, replay/recorder, and the Binance provider lifecycle.
Python floats for monotonic times and token counts are modelled as `ℚ`;
`asyncio.sleep` calls become explicit elements of returned traces.
-/

namespace Bargain

/-! ### Token-bucket rate limiter (`reliability.py`) -/

/-- `RateLimiterStateData` from `src/types.py`: the mutable dict
`{tokens, max_tokens, last_refill, refill_rate}`. -/
structure RateLimiterStateData where
  tokens : ℚ
  max_tokens : ℚ
  last_refill : ℚ
  refill_rate : ℚ
  deriving Repr, DecidableEq

/-- `create_rate_limiter(requests_per_second)` (`reliability.py:107`):
full bucket, capacity and rate both `requests_per_second`; `now` stands for
the `time.monotonic()` call. -/
def create_rate_limiter (requests_per_second : ℕ) (now : ℚ) : RateLimiterStateData :=
  { tokens := requests_per_second
    max_tokens := requests_per_second
    last_refill := now
    refill_rate := requests_per_second }

/-- `acquire_rate_limit(limiter)` (`reliability.py:127`).  Returns the
updated state and `some waitTime` when the caller was suspended
(`asyncio.sleep(wait_time)`), `none` when a token was immediately
available.  After a forced wait the code sets `tokens = 0` and
`last_refill = time.monotonic()`; the post-sleep clock reading is
`now + wait`. -/
def acquire_rate_limit (limiter : RateLimiterStateData) (now : ℚ) :
    RateLimiterStateData × Option ℚ :=
  let elapsed := now - limiter.last_refill
  let refill := elapsed * limiter.refill_rate
  let tokens := min limiter.max_tokens (limiter.tokens + refill)
  if 1 ≤ tokens then
    ({ limiter with tokens := tokens - 1, last_refill := now }, none)
  else
    let wait := (1 - tokens) / limiter.refill_rate
    ({ limiter with tokens := 0, last_refill := now + wait }, some wait)

/-- Iterate `acquire_rate_limit` `n` times, all at the same clock reading
`now` ("no time elapsing between calls"); collects the waits. -/
def acquireN (limiter : RateLimiterStateData) (now : ℚ) :
    ℕ → RateLimiterStateData × List ℚ
  | 0 => (limiter, [])
  | n + 1 =>
    let step := acquire_rate_limit limiter now
    let rest := acquireN step.1 now n
    (rest.1, step.2.toList ++ rest.2)

/-! ### Exponential backoff retrier (`reliability.py:22`) -/

/-- One run of the retry loop of `with_exponential_backoff`, starting at
loop index `attempt` with `fuel` attempts remaining (`fuel = 1` means
`attempt == max_attempts - 1`, the final attempt).  `op i` is the result of
the `i`-th invocation of `operation`.  Returns the sleeps performed (in
milliseconds, `min(base_delay_ms * 2**attempt, max_delay_ms)`), the number
of attempts executed, and the outcome; `Except.error none` is the
unreachable `RuntimeError` fallback for a zero-attempt budget. -/
def backoffGo {E T : Type} (op : ℕ → Except E T) (base_delay_ms max_delay_ms : ℕ)
    (attempt : ℕ) : (fuel : ℕ) → List ℕ × ℕ × Except (Option E) T
  | 0 => ([], 0, .error none)
  | fuel + 1 =>
    match op attempt with
    | .ok v => ([], 1, .ok v)
    | .error e =>
      if fuel = 0 then
        ([], 1, .error (some e))
      else
        let delay := min (base_delay_ms * 2 ^ attempt) max_delay_ms
        let rest := backoffGo op base_delay_ms max_delay_ms (attempt + 1) fuel
        (delay :: rest.1, rest.2.1 + 1, rest.2.2)

/-- `with_exponential_backoff(operation, max_attempts, base_delay_ms,
max_delay_ms)`: run the loop from attempt 0 with `max_attempts` budget. -/
def with_exponential_backoff {E T : Type} (op : ℕ → Except E T)
    (max_attempts base_delay_ms max_delay_ms : ℕ) :
    List ℕ × ℕ × Except (Option E) T :=
  backoffGo op base_delay_ms max_delay_ms 0 max_attempts

/-! ### Circuit breaker (`reliability.py:192`) -/

/-- The `CircuitBreaker` instance fields. -/
structure CircuitBreaker where
  failure_count : ℕ
  failure_threshold : ℕ
  recovery_timeout : ℚ
  last_failure_time : Option ℚ
  is_open : Bool
  deriving Repr, DecidableEq

/-- `CircuitBreaker.__init__` with explicit threshold and timeout. -/
def CircuitBreaker.create (failure_threshold : ℕ) (recovery_timeout_s : ℚ) :
    CircuitBreaker :=
  { failure_count := 0
    failure_threshold := failure_threshold
    recovery_timeout := recovery_timeout_s
    last_failure_time := none
    is_open := false }

/-- `record_success()`: reset failure count, close the circuit
(`last_failure_time` is left untouched). -/
def CircuitBreaker.record_success (cb : CircuitBreaker) : CircuitBreaker :=
  { cb with failure_count := 0, is_open := false }

/-- `record_failure()`; `now` is the `time.monotonic()` reading. -/
def CircuitBreaker.record_failure (cb : CircuitBreaker) (now : ℚ) : CircuitBreaker :=
  let cb := { cb with
    failure_count := cb.failure_count + 1
    last_failure_time := some now }
  if cb.failure_threshold ≤ cb.failure_count then
    { cb with is_open := true }
  else
    cb

/-- `is_available()` at clock reading `now`. -/
def CircuitBreaker.is_available (cb : CircuitBreaker) (now : ℚ) : Bool :=
  if !cb.is_open then
    true
  else
    match cb.last_failure_time with
    | none => true
    | some t => decide (cb.recovery_timeout ≤ now - t)

/-- `get_state()` at clock reading `now`. -/
def CircuitBreaker.get_state (cb : CircuitBreaker) (now : ℚ) : String :=
  if !cb.is_open then "closed"
  else if cb.is_available now then "half-open"
  else "open"

/-- One externally invokable circuit-breaker operation. -/
inductive CBOp
  | success
  | failure (now : ℚ)
  deriving Repr

/-- Apply one operation. -/
def CircuitBreaker.applyOp (cb : CircuitBreaker) : CBOp → CircuitBreaker
  | .success => cb.record_success
  | .failure now => cb.record_failure now

/-- Apply a sequence of operations, first element first. -/
def CircuitBreaker.applyOps (cb : CircuitBreaker) : List CBOp → CircuitBreaker
  | [] => cb
  | op :: ops => (cb.applyOp op).applyOps ops

/-! ### Event bus (`event_bus.py`)

Callbacks are abstract values of a type `κ` with decidable equality
(Python compares callbacks with `==` in `list.remove`/`in`).  A callback's
only observable behaviour at the bus level is whether invoking it raises,
given by a behaviour map `raises : κ → Bool`; `emit` returns the ordered
list of callbacks it invoked. -/

/-- The dict built by `create_event_bus()`: per-type subscriber lists
(`dict.get(event_type, [])` becomes a total function defaulting to `[]`),
plus the two counters. -/
structure EventBus (κ : Type) where
  subscribers : String → List κ
  async_subscribers : String → List κ
  event_count : ℕ
  error_count : ℕ

/-- `create_event_bus()`. -/
def create_event_bus (κ : Type) : EventBus κ :=
  { subscribers := fun _ => []
    async_subscribers := fun _ => []
    event_count := 0
    error_count := 0 }

/-- `subscribe_event(bus, event_type, callback)`: append to the per-type
list (creating it if absent). -/
def subscribe_event {κ : Type} (bus : EventBus κ) (event_type : String) (cb : κ) :
    EventBus κ :=
  { bus with subscribers := fun t =>
      if t = event_type then bus.subscribers t ++ [cb] else bus.subscribers t }

/-- The closure returned by `subscribe_event`: `if callback in list:
list.remove(callback)` — remove the first occurrence, no-op when absent. -/
def unsubscribe_event {κ : Type} [DecidableEq κ] (bus : EventBus κ)
    (event_type : String) (cb : κ) : EventBus κ :=
  { bus with subscribers := fun t =>
      if t = event_type then (bus.subscribers t).erase cb else bus.subscribers t }

/-- The `for callback in callbacks` loop of `emit_event`: each invocation
is individually guarded; a raising callback adds one to `error_count`.
Returns the updated error count and the invocation order. -/
def emitLoop {κ : Type} (raises : κ → Bool) (error_count : ℕ) :
    List κ → ℕ × List κ
  | [] => (error_count, [])
  | cb :: rest =>
    let error_count := if raises cb then error_count + 1 else error_count
    let r := emitLoop raises error_count rest
    (r.1, cb :: r.2)

/-- `emit_event(bus, event_type, data)`: bump `event_count`, then fan out
to the sync subscribers for `event_type`.  Returns the new bus state and
the list of callbacks invoked, in order. -/
def emit_event {κ : Type} (raises : κ → Bool) (bus : EventBus κ)
    (event_type : String) : EventBus κ × List κ :=
  let r := emitLoop raises bus.error_count (bus.subscribers event_type)
  ({ bus with event_count := bus.event_count + 1, error_count := r.1 }, r.2)

/-! ### Controller dispatch (`controller.py:414`) -/

/-- One observable effect of `_dispatch_event`, in program order. -/
inductive DispatchObs (δ : Type)
  | storage (data : δ)
  | handler (slot : String) (data : Option δ)
  | busEmit (event_type : String)
  | bridgeEmit (event_type : String)
  deriving Repr, DecidableEq

/-- The parts of the controller state `_dispatch_event` consults, together
with the behaviour of the application-supplied pieces: `handlers slot` says
whether `state["handlers"]` has that slot, `handler_raises slot` whether
invoking it raises, `truthy` is Python truthiness of a data payload
(`None` is the `none` case), `bridge_configured` whether
`event_bus_config` with an `emit` key is present. -/
structure DispatchConfig (δ : Type) where
  handlers : String → Bool
  handler_raises : String → Bool
  storage_configured : Bool
  bridge_configured : Bool
  bridge_raises : Bool
  truthy : δ → Bool

/-- The direct-handler slot consulted for an event type: the
`if/elif` chain of `_dispatch_event` keyed to `handlers.get("on_…")`. -/
def handlerSlot (event_type : String) : Option String :=
  if event_type = "trade" then some "on_trade"
  else if event_type = "candle" then some "on_candle"
  else if event_type = "tick" then some "on_tick"
  else if event_type = "orderbook_snapshot" then some "on_orderbook_snapshot"
  else if event_type = "orderbook_delta" then some "on_orderbook_delta"
  else none

/-- One guarded direct-handler invocation (`try: handler(data) except:
log`): the observation, plus 1 if the raised exception was caught. -/
def invokeHandler {δ : Type} (cfg : DispatchConfig δ) (slot : String)
    (data : Option δ) : List (DispatchObs δ) × ℕ :=
  if cfg.handlers slot then
    ([.handler slot data], if cfg.handler_raises slot then 1 else 0)
  else
    ([], 0)

/-- `_dispatch_event(state, event_type, data)`.  Returns the updated
internal event bus, the ordered observation trace, and the number of
exceptions caught at the dispatch boundary.  Program order: storage
buffering, the matching direct-handler branch, `emit_event` on the
internal bus, then the external bridge. -/
def dispatch_event {δ κ : Type} (cfg : DispatchConfig δ) (raises : κ → Bool)
    (bus : EventBus κ) (event_type : String) (data : Option δ) :
    EventBus κ × List (DispatchObs δ) × ℕ :=
  let storagePart : List (DispatchObs δ) :=
    match data with
    | some d => if cfg.storage_configured ∧ cfg.truthy d then [.storage d] else []
    | none => []
  let handlerPart : List (DispatchObs δ) × ℕ :=
    if event_type = "trade" then invokeHandler cfg "on_trade" data
    else if event_type = "candle" then invokeHandler cfg "on_candle" data
    else if event_type = "tick" then invokeHandler cfg "on_tick" data
    else if event_type = "orderbook_snapshot" then
      invokeHandler cfg "on_orderbook_snapshot" data
    else if event_type = "orderbook_delta" then
      invokeHandler cfg "on_orderbook_delta" data
    else ([], 0)
  let busR := emit_event raises bus event_type
  let bridgePart : List (DispatchObs δ) × ℕ :=
    if cfg.bridge_configured then
      ([.bridgeEmit event_type], if cfg.bridge_raises then 1 else 0)
    else ([], 0)
  (busR.1,
   storagePart ++ handlerPart.1 ++ [.busEmit event_type] ++ bridgePart.1,
   handlerPart.2 + bridgePart.2)

/-! ### Replay and recorder (`replay.py`)

Event payloads are abstract values of a type `δ`.  Replay handlers are
modelled by the set of slots present in the `HandlersData` dict
(`has : String → Bool`); an invocation trace entry `(slot, data)` records
one `handler(record.get("data", {}))` call. -/

/-- One replayed/recorded record: the dict `{type, timestamp_ms, data}`. -/
structure ReplayRecord (δ : Type) where
  type : String
  timestamp_ms : ℤ
  data : δ
  deriving Repr, DecidableEq

/-- The stats dict of `replay_from_file`. -/
structure ReplayFileStats where
  trades : ℕ
  candles : ℕ
  ticks : ℕ
  orderbook_snapshots : ℕ
  orderbook_deltas : ℕ
  skipped : ℕ
  deriving Repr, DecidableEq

/-- Initial stats of `replay_from_file`. -/
def ReplayFileStats.init : ReplayFileStats := ⟨0, 0, 0, 0, 0, 0⟩

/-- The stats dict of `replay_from_records`. -/
structure ReplayRecordsStats where
  trades : ℕ
  candles : ℕ
  total : ℕ
  deriving Repr, DecidableEq

/-- Initial stats of `replay_from_records`. -/
def ReplayRecordsStats.init : ReplayRecordsStats := ⟨0, 0, 0⟩

/-- The `# Route by type` block of `replay_from_file`: bump the per-type
counter and invoke the matching handler when registered.  Returns the
updated stats and the handler invocations (at most one). -/
def routeFileRecord {δ : Type} (has : String → Bool) (stats : ReplayFileStats)
    (r : ReplayRecord δ) : ReplayFileStats × List (String × δ) :=
  if r.type = "trade" then
    ({ stats with trades := stats.trades + 1 },
     if has "on_trade" then [("on_trade", r.data)] else [])
  else if r.type = "candle" then
    ({ stats with candles := stats.candles + 1 },
     if has "on_candle" then [("on_candle", r.data)] else [])
  else if r.type = "tick" then
    ({ stats with ticks := stats.ticks + 1 },
     if has "on_tick" then [("on_tick", r.data)] else [])
  else if r.type = "orderbook_snapshot" then
    ({ stats with orderbook_snapshots := stats.orderbook_snapshots + 1 },
     if has "on_orderbook_snapshot" then [("on_orderbook_snapshot", r.data)] else [])
  else if r.type = "orderbook_delta" then
    ({ stats with orderbook_deltas := stats.orderbook_deltas + 1 },
     if has "on_orderbook_delta" then [("on_orderbook_delta", r.data)] else [])
  else
    (stats, [])

/-- The pacing step shared by both replay loops: `if last_timestamp is not
None and speed_multiplier > 0`, sleep `(t - last)/1000/speed` when that
delay is positive.  Returns the sleep performed, if any. -/
def replayPacing (speed : ℚ) (last : Option ℤ) (t : ℤ) : List ℚ :=
  match last with
  | none => []
  | some prev =>
    if 0 < speed then
      let delay := ((t : ℚ) - (prev : ℚ)) / 1000 / speed
      if 0 < delay then [delay] else []
    else []

/-- The record loop of `replay_from_file(file_path, handlers,
speed_multiplier, start_time_ms, end_time_ms)` after JSON parsing: time
filters (Python truthiness: a `None` or `0` bound disables its filter),
pacing sleeps, and per-type routing.  Returns final stats, the ordered
handler-invocation trace, and the sleeps performed. -/
def replayFileLoop {δ : Type} (has : String → Bool) (speed : ℚ)
    (start_time_ms end_time_ms : Option ℤ) (last : Option ℤ)
    (stats : ReplayFileStats) :
    List (ReplayRecord δ) → ReplayFileStats × List (String × δ) × List ℚ
  | [] => (stats, [], [])
  | r :: rest =>
    let t := r.timestamp_ms
    if (match start_time_ms with
        | some s => decide (s ≠ 0) && decide (t < s)
        | none => false) then
      replayFileLoop has speed start_time_ms end_time_ms last
        { stats with skipped := stats.skipped + 1 } rest
    else if (match end_time_ms with
        | some e => decide (e ≠ 0) && decide (e < t)
        | none => false) then
      (stats, [], [])
    else
      let sleeps := replayPacing speed last t
      let routed := routeFileRecord has stats r
      let restR := replayFileLoop has speed start_time_ms end_time_ms (some t)
        routed.1 rest
      (restR.1, routed.2 ++ restR.2.1, sleeps ++ restR.2.2)

/-- `replay_from_file` on an already-parsed record list. -/
def replay_from_file {δ : Type} (records : List (ReplayRecord δ))
    (has : String → Bool) (speed : ℚ)
    (start_time_ms end_time_ms : Option ℤ) :
    ReplayFileStats × List (String × δ) × List ℚ :=
  replayFileLoop has speed start_time_ms end_time_ms none ReplayFileStats.init
    records

/-- The per-record body of `replay_from_records`: `total` always
increments; only `trade` and `candle` are routed.  (The unconditional
`await asyncio.sleep(0)` at the end of the loop body is a scheduler yield,
not a delay, and is not collected.) -/
def routeRecordsRecord {δ : Type} (has : String → Bool)
    (stats : ReplayRecordsStats) (r : ReplayRecord δ) :
    ReplayRecordsStats × List (String × δ) :=
  let stats := { stats with total := stats.total + 1 }
  if r.type = "trade" then
    ({ stats with trades := stats.trades + 1 },
     if has "on_trade" then [("on_trade", r.data)] else [])
  else if r.type = "candle" then
    ({ stats with candles := stats.candles + 1 },
     if has "on_candle" then [("on_candle", r.data)] else [])
  else
    (stats, [])

/-- The record loop of `replay_from_records(records, handlers,
speed_multiplier)`. -/
def replayRecordsLoop {δ : Type} (has : String → Bool) (speed : ℚ)
    (last : Option ℤ) (stats : ReplayRecordsStats) :
    List (ReplayRecord δ) → ReplayRecordsStats × List (String × δ) × List ℚ
  | [] => (stats, [], [])
  | r :: rest =>
    let t := r.timestamp_ms
    let sleeps := replayPacing speed last t
    let routed := routeRecordsRecord has stats r
    let restR := replayRecordsLoop has speed (some t) routed.1 rest
    (restR.1, routed.2 ++ restR.2.1, sleeps ++ restR.2.2)

/-- `replay_from_records(records, handlers, speed_multiplier)`. -/
def replay_from_records {δ : Type} (records : List (ReplayRecord δ))
    (has : String → Bool) (speed : ℚ) :
    ReplayRecordsStats × List (String × δ) × List ℚ :=
  replayRecordsLoop has speed none ReplayRecordsStats.init records

/-- `create_replay_recorder()` / `start_recording` / `stop_recording` /
`record_event` state (`replay.py:196`). -/
structure RecorderState (δ : Type) where
  records : List (ReplayRecord δ)
  recording : Bool
  start_time_ms : Option ℤ
  deriving Repr, DecidableEq

/-- `create_replay_recorder()`. -/
def create_replay_recorder (δ : Type) : RecorderState δ :=
  { records := [], recording := false, start_time_ms := none }

/-- `start_recording(state)`: mark active, stamp the wall clock, clear the
record list. -/
def start_recording {δ : Type} (s : RecorderState δ) (now_ms : ℤ) :
    RecorderState δ :=
  { s with recording := true, start_time_ms := some now_ms, records := [] }

/-- `stop_recording(state)`: mark inactive and hand back a copy of the
accumulated records. -/
def stop_recording {δ : Type} (s : RecorderState δ) :
    List (ReplayRecord δ) × RecorderState δ :=
  (({ s with recording := false }).records, { s with recording := false })

/-- `record_event(state, event_type, data, timestamp_ms)`: append only
while recording. -/
def record_event {δ : Type} (s : RecorderState δ) (event_type : String)
    (data : δ) (timestamp_ms : ℤ) : RecorderState δ :=
  if !s.recording then s
  else { s with records := s.records ++
    [{ type := event_type, timestamp_ms := timestamp_ms, data := data }] }

/-! ### Binance provider (`providers/binance.py`)

The `aiohttp` sessions are modelled by presence booleans; whether
`ws_connect` succeeds on a given attempt is an external schedule
parameter.  Clock-independent fields only are kept (the rate limiter is
threaded through untouched by the lifecycle functions modelled here). -/

/-- `SubscriptionConfigData` from `src/types.py`. -/
structure SubscriptionConfigData where
  symbol : String
  data_types : List String
  interval : Option String
  deriving Repr, DecidableEq

/-- The provider state dict of `create_binance_provider`. -/
structure BinanceState where
  name : String
  status : String
  ws_session : Bool
  http_session : Bool
  ping_task : Bool
  subscriptions : List SubscriptionConfigData
  last_message_ms : Option ℤ
  reconnect_count : ℕ
  message_count : ℕ
  error_count : ℕ
  rate_limiter : RateLimiterStateData
  deriving Repr, DecidableEq

/-- `create_binance_provider(config)` (`binance.py:35`). -/
def create_binance_provider (name : String) (rate_limit_per_second : ℕ)
    (now : ℚ) : BinanceState :=
  { name := name
    status := "disconnected"
    ws_session := false
    http_session := false
    ping_task := false
    subscriptions := []
    last_message_ms := none
    reconnect_count := 0
    message_count := 0
    error_count := 0
    rate_limiter := create_rate_limiter rate_limit_per_second now }

/-- `denormalize_symbol(symbol, provider)` (`normalization.py:86`). -/
def denormalize_symbol (symbol provider : String) : String :=
  if provider = "binance" then (symbol.replace "/" "").toUpper
  else symbol.replace "/" ""

/-- `sub.get("interval") or "1m"`: Python `or` replaces both `None` and
the empty string. -/
def intervalOrDefault (interval : Option String) : String :=
  match interval with
  | some i => if i = "" then "1m" else i
  | none => "1m"

/-- The stream names built by the subscription loop of
`subscribe_binance` for one subscription, in `data_types` order. -/
def subscribeStreamsFor (sub : SubscriptionConfigData) : List String :=
  let sym := (denormalize_symbol sub.symbol "binance").toLower
  sub.data_types.flatMap fun dt =>
    if dt = "trade" then [sym ++ "@trade"]
    else if dt = "candle" then
      [sym ++ "@kline_" ++ intervalOrDefault sub.interval]
    else if dt = "orderbook_delta" then [sym ++ "@depth@100ms"]
    else if dt = "orderbook_snapshot" then [sym ++ "@depth20@1000ms"]
    else if dt = "tick" then [sym ++ "@bookTicker"]
    else []

/-- The stream names built by the loop of `unsubscribe_binance`: only the
`trade` and `candle` branches exist there. -/
def unsubscribeStreamsFor (sub : SubscriptionConfigData) : List String :=
  let sym := (denormalize_symbol sub.symbol "binance").toLower
  sub.data_types.flatMap fun dt =>
    if dt = "trade" then [sym ++ "@trade"]
    else if dt = "candle" then
      [sym ++ "@kline_" ++ intervalOrDefault sub.interval]
    else []

/-- `subscribe_binance(state, subscriptions)` (`binance.py:380`): build the
stream list; when it is non-empty and a websocket is present, send one
SUBSCRIBE message and extend the tracked subscription list.  Returns the
new state and the streams sent, if any. -/
def subscribe_binance (s : BinanceState) (subs : List SubscriptionConfigData) :
    BinanceState × Option (List String) :=
  let streams := subs.flatMap subscribeStreamsFor
  if !streams.isEmpty && s.ws_session then
    ({ s with subscriptions := s.subscriptions ++ subs }, some streams)
  else
    (s, none)

/-- `unsubscribe_binance(state, subscriptions)` (`binance.py:422`): build
the (trade/candle-only) stream list; when it is non-empty and a websocket
is present, send one UNSUBSCRIBE message and remove the first occurrence
of each given subscription from the tracked list (`if sub in …: remove`). -/
def unsubscribe_binance (s : BinanceState) (subs : List SubscriptionConfigData) :
    BinanceState × Option (List String) :=
  let streams := subs.flatMap unsubscribeStreamsFor
  if !streams.isEmpty && s.ws_session then
    ({ s with subscriptions :=
        subs.foldl (fun l sub => l.erase sub) s.subscriptions }, some streams)
  else
    (s, none)

/-- `connect_binance(state)` (`binance.py:255`): set `connecting`, create
the HTTP session, attempt the websocket connection (`ws_connect_ok` says
whether it succeeds).  Success: `connected`, reconnect counter reset to 0,
ping task started.  Failure: `error`, error counter bumped, and a
`ConnectionError` is raised (the `.error` case carries the state left
behind). -/
def connect_binance (s : BinanceState) (ws_connect_ok : Bool) :
    Except BinanceState BinanceState :=
  let s := { s with status := "connecting", http_session := true }
  if ws_connect_ok then
    .ok { s with
      ws_session := true
      status := "connected"
      reconnect_count := 0
      ping_task := true }
  else
    .error { s with status := "error", error_count := s.error_count + 1 }

/-- `disconnect_binance(state)` (`binance.py:297`): cancel the ping task,
close both sessions, mark disconnected, clear the subscription list. -/
def disconnect_binance (s : BinanceState) : BinanceState :=
  { s with
    ping_task := false
    ws_session := false
    http_session := false
    status := "disconnected"
    subscriptions := [] }

/-- `with_exponential_backoff` applied to a state-mutating operation (the
shape `reconnect_binance` uses): identical loop to `backoffGo`, with the
provider state threaded through each attempt. -/
def backoffGoSt {σ E T : Type} (op : ℕ → σ → σ × Except E T)
    (base_delay_ms max_delay_ms : ℕ) (attempt : ℕ) :
    (fuel : ℕ) → σ → List ℕ × ℕ × σ × Except (Option E) T
  | 0, s => ([], 0, s, .error none)
  | fuel + 1, s =>
    match op attempt s with
    | (s', .ok v) => ([], 1, s', .ok v)
    | (s', .error e) =>
      if fuel = 0 then
        ([], 1, s', .error (some e))
      else
        let delay := min (base_delay_ms * 2 ^ attempt) max_delay_ms
        let rest := backoffGoSt op base_delay_ms max_delay_ms (attempt + 1) fuel s'
        (delay :: rest.1, rest.2.1 + 1, rest.2.2.1, rest.2.2.2)

/-- The `do_reconnect` closure inside `reconnect_binance`: connect, then,
when the snapshot was non-empty, resubscribe it.  `sched i` says whether
the `i`-th websocket connection attempt succeeds. -/
def binanceDoReconnect (old : List SubscriptionConfigData) (sched : ℕ → Bool)
    (i : ℕ) (s : BinanceState) : BinanceState × Except Unit Unit :=
  match connect_binance s (sched i) with
  | .error s' => (s', .error ())
  | .ok s' =>
    if old.isEmpty then (s', .ok ())
    else ((subscribe_binance s' old).1, .ok ())

/-- `reconnect_binance(state)` (`binance.py:328`): snapshot the
subscriptions, disconnect, bump the reconnect counter, then run the
backoff-wrapped connect-and-resubscribe.  Returns (sleeps in ms, attempts
executed, final state, outcome). -/
def reconnect_binance (s : BinanceState) (sched : ℕ → Bool)
    (reconnect_attempts base_delay_ms max_delay_ms : ℕ) :
    List ℕ × ℕ × BinanceState × Except (Option Unit) Unit :=
  let old := s.subscriptions
  let s := disconnect_binance s
  let s := { s with reconnect_count := s.reconnect_count + 1 }
  backoffGoSt (binanceDoReconnect old sched) base_delay_ms max_delay_ms 0
    reconnect_attempts s

/-- The dict returned by `get_binance_health(state)` (`binance.py:779`). -/
structure BinanceHealth where
  provider : String
  status : String
  last_message_ms : Option ℤ
  message_count : ℕ
  error_count : ℕ
  reconnect_count : ℕ
  subscription_count : ℕ
  deriving Repr, DecidableEq

/-- `get_binance_health(state)`. -/
def get_binance_health (s : BinanceState) : BinanceHealth :=
  { provider := s.name
    status := s.status
    last_message_ms := s.last_message_ms
    message_count := s.message_count
    error_count := s.error_count
    reconnect_count := s.reconnect_count
    subscription_count := s.subscriptions.length }

/-! ### Controller ingestion failure path (`controller.py:362`)

The `except Exception` branch of `_process_provider_messages`: emit one
error event (`_emit_error` = guarded `on_error` handler call plus one
internal-bus emit of type `"error"`), then, when the controller is still
running, drive `provider.reconnect()` and spawn a replacement task on
success (reconnect failure is logged and swallowed). -/

/-- Observable steps of the ingestion task's failure branch. -/
inductive IngestObs
  | errorEvent (provider : String)
  | replacementTask (provider : String)
  | reconnectFailed (provider : String)
  deriving Repr, DecidableEq

/-- The `except Exception` branch of `_process_provider_messages` for a
provider whose message iteration raised: `_emit_error` once, then the
guarded reconnect.  Returns the observation trace and the final provider
state. -/
def process_messages_failure (provider : String) (running : Bool)
    (pstate : BinanceState) (sched : ℕ → Bool)
    (reconnect_attempts base_delay_ms max_delay_ms : ℕ) :
    List IngestObs × BinanceState :=
  let obs := [IngestObs.errorEvent provider]
  if running then
    let r := reconnect_binance pstate sched reconnect_attempts base_delay_ms
      max_delay_ms
    match r.2.2.2 with
    | .ok _ => (obs ++ [IngestObs.replacementTask provider], r.2.2.1)
    | .error _ => (obs ++ [IngestObs.reconnectFailed provider], r.2.2.1)
  else
    (obs, pstate)

/-! ## Theorems -/

/-- Closed form of the guarded fan-out loop: every callback of the list is
invoked, in order, and the error counter advances by the number of raising
callbacks. -/
lemma emitLoop_eq {κ : Type} (raises : κ → Bool) (e : ℕ) (l : List κ) :
    emitLoop raises e l = (e + (l.filter raises).length, l) := by
  induction l generalizing e with
  | nil => simp [emitLoop]
  | cons cb rest ih =>
    by_cases h : raises cb
    · simp [emitLoop, h, ih, List.filter_cons]
      omega
    · simp [emitLoop, h, ih, List.filter_cons]

/-- C6: A single `emit_event` invokes every currently-registered sync
subscriber for the type, in subscription order, even when some raise: the
invocation list is exactly the subscriber list, `error_count` grows by
exactly the number of raising subscribers, `event_count` by one, and the
subscriber tables are untouched (no exception escapes to the emitter —
`emit_event` is total and its result is fully described below). -/
theorem emit_event_isolates_subscriber_errors {κ : Type} (raises : κ → Bool)
    (bus : EventBus κ) (t : String) :
    (emit_event raises bus t).2 = bus.subscribers t
    ∧ (emit_event raises bus t).1.error_count =
        bus.error_count + ((bus.subscribers t).filter raises).length
    ∧ (emit_event raises bus t).1.event_count = bus.event_count + 1
    ∧ (emit_event raises bus t).1.subscribers = bus.subscribers
    ∧ (emit_event raises bus t).1.async_subscribers = bus.async_subscribers := by
  simp [emit_event, emitLoop_eq]

/-- C7: Identical callbacks registered twice are independent entries
(both appear in the list); calling the unsubscribe closure removes exactly
one entry, so a subsequent emit of that type invokes the callback exactly
one time fewer — in particular a callback registered once is never invoked
again — and emits never re-register it (the subscriber list after the emit
is still the erased one). -/
theorem unsubscribed_entry_not_invoked {κ : Type} [DecidableEq κ]
    (raises : κ → Bool) (bus : EventBus κ) (t : String) (cb : κ) :
    (subscribe_event (subscribe_event bus t cb) t cb).subscribers t
        = bus.subscribers t ++ [cb, cb]
    ∧ (emit_event raises (unsubscribe_event bus t cb) t).2.count cb
        = (bus.subscribers t).count cb - 1
    ∧ ((bus.subscribers t).count cb = 1 →
        cb ∉ (emit_event raises (unsubscribe_event bus t cb) t).2)
    ∧ (emit_event raises (unsubscribe_event bus t cb) t).1.subscribers t
        = (bus.subscribers t).erase cb := by
  refine ⟨by simp [subscribe_event], ?_, ?_, ?_⟩
  · simp [emit_event, emitLoop_eq, unsubscribe_event, List.count_erase_self]
  · intro h1
    simp [emit_event, emitLoop_eq, unsubscribe_event]
    rw [← List.count_pos_iff, List.count_erase_self, h1]
    simp
  · simp [emit_event, emitLoop_eq, unsubscribe_event]

/-- Witness for `unsubscribed_entry_not_invoked`: on a bus whose only
subscriber for `"trade"` is callback `0`, registered once, an emit after
unsubscribing invokes nothing. -/
theorem unsubscribed_entry_not_invoked_witness :
    (0 : ℕ) ∉ (emit_event (fun _ => false)
      (unsubscribe_event
        (subscribe_event (create_event_bus ℕ) "trade" 0) "trade" 0) "trade").2 :=
  (unsubscribed_entry_not_invoked (fun _ => false)
    (subscribe_event (create_event_bus ℕ) "trade" 0) "trade" 0).2.2.1
    (by simp [subscribe_event, create_event_bus])

/-- C2: `_dispatch_event` produces its effects in the fixed order
storage → direct handler → internal bus → external bridge: the trace
factors as the storage observation (present exactly when storage is
configured and the data is truthy, hence non-null), then the single
direct-handler observation for the event kind's slot (when registered),
then the internal-bus emit under the same type, then the bridge forward
(when configured); the resulting internal bus is exactly `emit_event`
under the same type; and a raising direct handler or bridge is caught at
the boundary — the trace and bus are independent of the raise behaviour,
which only shows up in the caught-exception count. -/
theorem dispatch_event_fixed_order {δ κ : Type} (cfg : DispatchConfig δ)
    (raises : κ → Bool) (bus : EventBus κ) (t : String) (data : Option δ)
    (hr : String → Bool) (b2 : Bool) :
    (dispatch_event cfg raises bus t data).2.1 =
      (match data with
       | some d => if cfg.storage_configured ∧ cfg.truthy d then
            [DispatchObs.storage d] else []
       | none => []) ++
      (match handlerSlot t with
       | some slot => if cfg.handlers slot then
            [DispatchObs.handler slot data] else []
       | none => []) ++
      [DispatchObs.busEmit t] ++
      (if cfg.bridge_configured then [DispatchObs.bridgeEmit t] else [])
    ∧ (dispatch_event cfg raises bus t data).1 = (emit_event raises bus t).1
    ∧ (dispatch_event { cfg with handler_raises := hr, bridge_raises := b2 }
        raises bus t data).2.1 = (dispatch_event cfg raises bus t data).2.1
    ∧ (dispatch_event { cfg with handler_raises := hr, bridge_raises := b2 }
        raises bus t data).1 = (dispatch_event cfg raises bus t data).1 := by
  refine ⟨?_, by simp [dispatch_event], ?_, by simp [dispatch_event]⟩
  · by_cases h1 : t = "trade" <;> by_cases h2 : t = "candle" <;>
      by_cases h3 : t = "tick" <;> by_cases h4 : t = "orderbook_snapshot" <;>
      by_cases h5 : t = "orderbook_delta" <;>
      simp_all [dispatch_event, handlerSlot, invokeHandler] <;>
      split_ifs <;> simp
  · by_cases h1 : t = "trade" <;> by_cases h2 : t = "candle" <;>
      by_cases h3 : t = "tick" <;> by_cases h4 : t = "orderbook_snapshot" <;>
      by_cases h5 : t = "orderbook_delta" <;>
      simp_all [dispatch_event, handlerSlot, invokeHandler] <;>
      split_ifs <;> simp

/-- An operation that fails on its first `k` invocations (with error
`es i` on invocation `i`) and succeeds with `v` from then on. -/
def failsThenOk {E T : Type} (k : ℕ) (es : ℕ → E) (v : T) : ℕ → Except E T :=
  fun i => if i < k then .error (es i) else .ok v

/-- Run of the retry loop over a `failsThenOk` operation, from any loop
index at or before the first success, with enough budget to reach it. -/
lemma backoffGo_failsThenOk {E T : Type} (k : ℕ) (es : ℕ → E) (v : T)
    (b m : ℕ) :
    ∀ (fuel a : ℕ), a ≤ k → k - a < fuel →
    backoffGo (failsThenOk k es v) b m a fuel =
      ((List.range' a (k - a)).map (fun i => min (b * 2 ^ i) m),
        (k - a) + 1, .ok v) := by
  intro fuel
  induction fuel with
  | zero => omega
  | succ f ih =>
    intro a ha hf
    by_cases hak : a = k
    · subst hak
      simp [backoffGo, failsThenOk]
    · have halt : a < k := lt_of_le_of_ne ha hak
      have hop : failsThenOk k es v a = .error (es a) := by
        simp [failsThenOk, halt]
      have hf0 : f ≠ 0 := by omega
      rw [backoffGo, hop]
      simp only [hf0, if_false]
      rw [ih (a + 1) (by omega) (by omega)]
      have hrange : List.range' a (k - a) = a :: List.range' (a + 1) (k - (a + 1)) := by
        have : k - a = (k - (a + 1)) + 1 := by omega
        rw [this, List.range'_succ]
      rw [hrange]
      simp
      omega

/-- Run of the retry loop over an always-failing operation: all `fuel`
attempts execute, a sleep follows every attempt but the last, and the
final error is the one re-raised. -/
lemma backoffGo_allFail {E T : Type} (es : ℕ → E) (b m : ℕ) :
    ∀ (fuel a : ℕ), 1 ≤ fuel →
    backoffGo (T := T) (fun i => .error (es i)) b m a fuel =
      ((List.range' a (fuel - 1)).map (fun i => min (b * 2 ^ i) m),
        fuel, .error (some (es (a + fuel - 1)))) := by
  intro fuel
  induction fuel with
  | zero => omega
  | succ f ih =>
    intro a _
    by_cases hf : f = 0
    · subst hf
      simp [backoffGo]
    · rw [backoffGo]
      simp only [hf, if_false]
      rw [ih (a + 1) (by omega)]
      have hidx : a + 1 + f - 1 = a + (f + 1) - 1 := by omega
      have hrange : List.range' a f = a :: List.range' (a + 1) (f - 1) := by
        have : f = (f - 1) + 1 := by omega
        conv_lhs => rw [this]
        rw [List.range'_succ]
      rw [hidx]
      simp [hrange]

/-- C4: `with_exponential_backoff` with an operation failing exactly `k`
times, `k < max_attempts`, sleeps exactly
`[min(B·2^0,M), …, min(B·2^(k-1),M)]` in that order (no jitter), executes
`k+1` attempts and returns the successful result; with an operation
failing every time it executes exactly `max_attempts` attempts, sleeps
only after the first `max_attempts - 1` of them (no sleep after the final
attempt), and re-raises the last error unchanged. -/
theorem backoff_retrier_spec {E T : Type} (es : ℕ → E) (v : T)
    (k max_attempts b m : ℕ) (hk : k < max_attempts) :
    with_exponential_backoff (failsThenOk k es v) max_attempts b m =
      ((List.range k).map (fun i => min (b * 2 ^ i) m), k + 1, .ok v)
    ∧ with_exponential_backoff (T := T) (fun i => .error (es i))
        max_attempts b m =
      ((List.range (max_attempts - 1)).map (fun i => min (b * 2 ^ i) m),
        max_attempts, .error (some (es (max_attempts - 1)))) := by
  constructor
  · rw [with_exponential_backoff,
      backoffGo_failsThenOk k es v b m max_attempts 0 (by omega) (by omega)]
    simp [List.range_eq_range']
  · rw [with_exponential_backoff, backoffGo_allFail es b m max_attempts 0 (by omega)]
    simp [List.range_eq_range']

/-- Witness for `backoff_retrier_spec` at `k = 2`, `max_attempts = 4`,
base 100 ms, cap 150 ms: sleeps `[100, 150]` then success; the
always-failing run sleeps `[100, 150, 150]`, executes 4 attempts and
re-raises the error of attempt 3. -/
theorem backoff_retrier_spec_witness :
    with_exponential_backoff (failsThenOk 2 (fun i => i) 7) 4 100 150 =
      ([100, 150], 3, .ok 7)
    ∧ with_exponential_backoff (T := ℕ) (fun i => .error i) 4 100 150 =
      ([100, 150, 150], 4, .error (some 3)) := by
  have h := backoff_retrier_spec (fun i => i) 7 2 4 100 150 (by omega)
  refine ⟨?_, ?_⟩
  · rw [h.1]; rfl
  · rw [h.2]; rfl

/-- `applyOps` distributes over list append. -/
lemma CircuitBreaker.applyOps_append (cb : CircuitBreaker) (l1 l2 : List CBOp) :
    cb.applyOps (l1 ++ l2) = (cb.applyOps l1).applyOps l2 := by
  induction l1 generalizing cb with
  | nil => rfl
  | cons op ops ih => simp [CircuitBreaker.applyOps, ih]

/-- State after `j ≥ 1` consecutive `record_failure` calls on a fresh
breaker: count `j`, last failure time the `j`-th timestamp, open exactly
when the threshold has been reached. -/
lemma CircuitBreaker.failure_run (thr : ℕ) (tmo : ℚ) (ts : ℕ → ℚ) :
    ∀ j, 1 ≤ j →
    (CircuitBreaker.create thr tmo).applyOps
        ((List.range j).map fun i => CBOp.failure (ts i)) =
      { failure_count := j
        failure_threshold := thr
        recovery_timeout := tmo
        last_failure_time := some (ts (j - 1))
        is_open := decide (thr ≤ j) } := by
  intro j
  induction j with
  | zero => omega
  | succ j ih =>
    intro _
    by_cases hj : j = 0
    · subst hj
      simp [CircuitBreaker.applyOps, CircuitBreaker.applyOp,
        CircuitBreaker.record_failure, CircuitBreaker.create]
      by_cases h1 : thr ≤ 1 <;> simp [h1]
    · rw [List.range_succ, List.map_append, CircuitBreaker.applyOps_append,
        ih (by omega)]
      simp [CircuitBreaker.applyOps, CircuitBreaker.applyOp,
        CircuitBreaker.record_failure]
      by_cases h1 : thr ≤ j + 1
      · simp [h1]
      · have h2 : ¬ thr ≤ j := by omega
        simp [h1, h2]

/-- The openness invariant is preserved by every operation sequence:
whenever the breaker is open, the failure count has reached the
threshold. -/
lemma CircuitBreaker.applyOps_open_invariant :
    ∀ (ops : List CBOp) (cb : CircuitBreaker),
    (cb.is_open = true → cb.failure_threshold ≤ cb.failure_count) →
    ((cb.applyOps ops).is_open = true →
      (cb.applyOps ops).failure_threshold ≤ (cb.applyOps ops).failure_count) := by
  intro ops
  induction ops with
  | nil => intro cb h; exact h
  | cons op rest ih =>
    intro cb h
    apply ih
    match op with
    | .success => simp [CircuitBreaker.applyOp, CircuitBreaker.record_success]
    | .failure now =>
      simp only [CircuitBreaker.applyOp, CircuitBreaker.record_failure]
      by_cases h1 : cb.failure_threshold ≤ cb.failure_count + 1
      · simp only [h1, if_true]
        intro _
        trivial
      · simp only [h1, if_false]
        intro hopen
        have := h hopen
        omega

/-- C5: From a fresh breaker, `is_open` holds only when the failure count
has reached the threshold (for every operation sequence); after exactly
`threshold` consecutive `record_failure` calls the derived state is
`"open"` (queried before the recovery timeout has elapsed since the last
failure); after additionally waiting at least `recovery_timeout` the
derived state is `"half-open"` with the failure count unchanged at
`threshold`; `record_success` yields `"closed"` with count 0; and on any
breaker state, `record_success` is the reset — `record_failure` always
increments the count and never closes an open circuit, and the derived
state is a pure function of the stored state and the query time, so time
passing alone never changes the counter. -/
theorem circuit_breaker_spec (thr : ℕ) (tmo : ℚ) (ts : ℕ → ℚ)
    (now later : ℚ) (ops : List CBOp) (cb : CircuitBreaker)
    (hthr : 1 ≤ thr)
    (hopen : now - ts (thr - 1) < tmo)
    (hhalf : tmo ≤ later - ts (thr - 1)) :
    (((CircuitBreaker.create thr tmo).applyOps ops).is_open = true →
        thr ≤ ((CircuitBreaker.create thr tmo).applyOps ops).failure_count)
    ∧ ((CircuitBreaker.create thr tmo).applyOps
          ((List.range thr).map fun i => CBOp.failure (ts i))).get_state now
        = "open"
    ∧ ((CircuitBreaker.create thr tmo).applyOps
          ((List.range thr).map fun i => CBOp.failure (ts i))).get_state later
        = "half-open"
    ∧ ((CircuitBreaker.create thr tmo).applyOps
          ((List.range thr).map fun i => CBOp.failure (ts i))).failure_count
        = thr
    ∧ (((CircuitBreaker.create thr tmo).applyOps
          ((List.range thr).map fun i => CBOp.failure (ts i))).record_success).get_state now
        = "closed"
    ∧ (((CircuitBreaker.create thr tmo).applyOps
          ((List.range thr).map fun i => CBOp.failure (ts i))).record_success).failure_count
        = 0
    ∧ (cb.record_success).failure_count = 0
    ∧ (cb.record_success).is_open = false
    ∧ (cb.record_failure now).failure_count = cb.failure_count + 1
    ∧ (cb.is_open = true → (cb.record_failure now).is_open = true) := by
  have hrun := CircuitBreaker.failure_run thr tmo ts thr hthr
  have hthresh : ∀ (c : CircuitBreaker) (l : List CBOp),
      (c.applyOps l).failure_threshold = c.failure_threshold := by
    intro c l
    induction l generalizing c with
    | nil => rfl
    | cons op rest ih =>
      rw [CircuitBreaker.applyOps, ih]
      match op with
      | .success => rfl
      | .failure n =>
        simp only [CircuitBreaker.applyOp, CircuitBreaker.record_failure]
        split_ifs <;> rfl
  refine ⟨?_, ?_, ?_, ?_, ?_, ?_, ?_, ?_, ?_, ?_⟩
  · intro h
    have := CircuitBreaker.applyOps_open_invariant ops
      (CircuitBreaker.create thr tmo) (by simp [CircuitBreaker.create]) h
    rw [hthresh] at this
    simp only [CircuitBreaker.create] at this
    exact this
  · rw [hrun]
    simp [CircuitBreaker.get_state, CircuitBreaker.is_available]
    exact hopen
  · rw [hrun]
    simp [CircuitBreaker.get_state, CircuitBreaker.is_available]
    exact hhalf
  · rw [hrun]
  · rw [hrun]
    simp [CircuitBreaker.record_success, CircuitBreaker.get_state]
  · rw [hrun]
    simp [CircuitBreaker.record_success]
  · simp [CircuitBreaker.record_success]
  · simp [CircuitBreaker.record_success]
  · simp only [CircuitBreaker.record_failure]
    split_ifs <;> rfl
  · intro h
    simp only [CircuitBreaker.record_failure]
    split_ifs <;> simp [h]

/-- Witness for `circuit_breaker_spec`: threshold 2, timeout 10 s,
failures at times 0 and 1, queried at 5 (open) and 11 (half-open). -/
theorem circuit_breaker_spec_witness :
    ((CircuitBreaker.create 2 10).applyOps
        ((List.range 2).map fun i => CBOp.failure ((fun i => (i : ℚ)) i))).get_state 5
      = "open"
    ∧ ((CircuitBreaker.create 2 10).applyOps
        ((List.range 2).map fun i => CBOp.failure ((fun i => (i : ℚ)) i))).get_state 11
      = "half-open" := by
  have h := circuit_breaker_spec 2 10 (fun i => (i : ℚ)) 5 11 []
    (CircuitBreaker.create 2 10) (by omega) (by norm_num) (by norm_num)
  exact ⟨h.2.1, h.2.2.1⟩

/-- The refill computation of `acquire_rate_limit`
(`reliability.py:139-143`): `min(max_tokens, tokens + elapsed*refill_rate)`. -/
def refillTokens (lim : RateLimiterStateData) (now : ℚ) : ℚ :=
  min lim.max_tokens (lim.tokens + (now - lim.last_refill) * lim.refill_rate)

/-- One acquire at the exact last-refill instant, with `1 ≤ x ≤ R` tokens:
a token is taken immediately, nothing else changes. -/
lemma acquire_at_refill (R : ℕ) (t0 : ℚ) (x : ℚ) (hx1 : 1 ≤ x)
    (hxR : x ≤ (R : ℚ)) :
    acquire_rate_limit ⟨x, R, t0, R⟩ t0 = (⟨x - 1, R, t0, R⟩, none) := by
  have htk : min ((R : ℚ)) (x + (t0 - t0) * R) = x := by
    rw [show x + (t0 - t0) * (R : ℚ) = x by ring]
    exact min_eq_right hxR
  simp only [acquire_rate_limit, htk]
  rw [if_pos hx1]

/-- Draining a bucket holding `x ≤ R` (integer) tokens with `x` immediate
acquires at the refill instant never suspends and leaves zero tokens. -/
lemma acquireN_drain (R : ℕ) (t0 : ℚ) :
    ∀ (x : ℕ), x ≤ R →
    acquireN ⟨(x : ℚ), R, t0, R⟩ t0 x = (⟨0, R, t0, R⟩, []) := by
  intro x
  induction x with
  | zero => intro _; simp [acquireN]
  | succ x ih =>
    intro hx
    rw [acquireN]
    have hstep := acquire_at_refill R t0 ((x : ℚ) + 1)
      (by have := Nat.cast_nonneg (α := ℚ) x; linarith)
      (by exact_mod_cast hx)
    push_cast
    rw [hstep]
    simp only [add_sub_cancel_right]
    rw [ih (by omega)]
    simp

/-- C3: `acquire` first refills to
`min(max_tokens, tokens + elapsed·refill_rate)` and stamps `last_refill =
now`; with at least one refilled token it decrements and does not suspend;
otherwise it suspends `(1 - tokens)/refill_rate` seconds and afterwards
holds exactly 0 tokens with `last_refill` at the post-wait clock (no
second partial refill).  Tokens stay within `[0, max_tokens]` across any
acquire, and from a freshly created full bucket of capacity `R ≥ 1`, with
no time elapsing between calls, the `(R+1)`-th acquire suspends exactly
(hence at least) `1/R` seconds. -/
theorem rate_limiter_spec (R : ℕ) (hR : 1 ≤ R) (t0 : ℚ)
    (lim : RateLimiterStateData) (now : ℚ)
    (h0 : 0 ≤ lim.tokens) (hmax : lim.tokens ≤ lim.max_tokens) :
    (1 ≤ refillTokens lim now →
      acquire_rate_limit lim now =
        (⟨refillTokens lim now - 1, lim.max_tokens, now, lim.refill_rate⟩,
          none))
    ∧ (refillTokens lim now < 1 →
      acquire_rate_limit lim now =
        (⟨0, lim.max_tokens,
            now + (1 - refillTokens lim now) / lim.refill_rate,
            lim.refill_rate⟩,
          some ((1 - refillTokens lim now) / lim.refill_rate)))
    ∧ (0 ≤ (acquire_rate_limit lim now).1.tokens
        ∧ (acquire_rate_limit lim now).1.tokens ≤ lim.max_tokens)
    ∧ (acquireN (create_rate_limiter R t0) t0 (R + 1)).2 = [1 / (R : ℚ)] := by
  refine ⟨?_, ?_, ?_, ?_⟩
  · intro h
    simp only [acquire_rate_limit, refillTokens] at *
    rw [if_pos h]
  · intro h
    simp only [acquire_rate_limit, refillTokens] at *
    rw [if_neg (not_le.mpr h)]
  · by_cases h : 1 ≤ refillTokens lim now
    · have heq : acquire_rate_limit lim now =
          (⟨refillTokens lim now - 1, lim.max_tokens, now, lim.refill_rate⟩,
            none) := by
        simp only [acquire_rate_limit, refillTokens] at *
        rw [if_pos h]
      rw [heq]
      constructor
      · simp only []
        linarith
      · simp only []
        have : refillTokens lim now ≤ lim.max_tokens := min_le_left _ _
        linarith
    · have heq : acquire_rate_limit lim now =
          (⟨0, lim.max_tokens,
              now + (1 - refillTokens lim now) / lim.refill_rate,
              lim.refill_rate⟩,
            some ((1 - refillTokens lim now) / lim.refill_rate)) := by
        simp only [acquire_rate_limit, refillTokens] at *
        rw [if_neg h]
      rw [heq]
      exact ⟨le_refl 0, le_trans h0 hmax⟩
  · have hcreate : create_rate_limiter R t0 =
        ⟨((R : ℕ) : ℚ), R, t0, R⟩ := rfl
    have hsplit : R + 1 = R + 1 := rfl
    have hcomp : ∀ (l : RateLimiterStateData) (m n : ℕ),
        acquireN l t0 (m + n) =
          ((acquireN (acquireN l t0 m).1 t0 n).1,
           (acquireN l t0 m).2 ++ (acquireN (acquireN l t0 m).1 t0 n).2) := by
      intro l m n
      induction m generalizing l with
      | zero => simp [acquireN]
      | succ m ih =>
        have : m + 1 + n = (m + n) + 1 := by omega
        rw [this, acquireN, acquireN, ih]
        simp [List.append_assoc]
    rw [hcreate, hcomp _ R 1, acquireN_drain R t0 R (le_refl R)]
    have hlast : acquireN (⟨0, R, t0, R⟩ : RateLimiterStateData) t0 1 =
        (⟨0, R, t0 + 1 / (R : ℚ), R⟩, [1 / (R : ℚ)]) := by
      have htk : min ((R : ℚ)) ((0 : ℚ) + (t0 - t0) * R) = 0 := by
        rw [show (0 : ℚ) + (t0 - t0) * (R : ℚ) = 0 by ring]
        exact min_eq_right (by positivity)
      have hnot : ¬ (1 : ℚ) ≤ min ((R : ℚ)) ((0 : ℚ) + (t0 - t0) * R) := by
        rw [htk]; norm_num
      simp only [acquireN, acquire_rate_limit, hnot, if_false, htk]
      norm_num
    rw [hlast]
    simp

/-- Witness for `rate_limiter_spec`: capacity 2, times at 0 — the third
acquire on an untouched clock sleeps exactly `1/2` second. -/
theorem rate_limiter_spec_witness :
    (acquireN (create_rate_limiter 2 0) 0 3).2 = [1 / (2 : ℚ)] :=
  (rate_limiter_spec 2 (by norm_num) 0 ⟨2, 2, 0, 2⟩ 0 (by norm_num)
    (by norm_num)).2.2.2

/-- The handler invocations of the file-replay routing block do not
depend on the running stats. -/
lemma routeFileRecord_trace_indep {δ : Type} (has : String → Bool)
    (st st' : ReplayFileStats) (r : ReplayRecord δ) :
    (routeFileRecord has st r).2 = (routeFileRecord has st' r).2 := by
  unfold routeFileRecord
  split_ifs <;> rfl

/-- The handler invocations of the in-memory routing block do not depend
on the running stats. -/
lemma routeRecordsRecord_trace_indep {δ : Type} (has : String → Bool)
    (st st' : ReplayRecordsStats) (r : ReplayRecord δ) :
    (routeRecordsRecord has st r).2 = (routeRecordsRecord has st' r).2 := by
  unfold routeRecordsRecord
  split_ifs <;> rfl

/-- In instant mode with no time filters, the file replay loop performs no
sleeps and its invocation trace is the concatenation of the per-record
routings. -/
lemma replayFileLoop_instant {δ : Type} (has : String → Bool) :
    ∀ (records : List (ReplayRecord δ)) (last : Option ℤ)
      (st : ReplayFileStats),
    (replayFileLoop has 0 none none last st records).2.1
        = records.flatMap (fun r => (routeFileRecord has ReplayFileStats.init r).2)
    ∧ (replayFileLoop has 0 none none last st records).2.2 = [] := by
  intro records
  induction records with
  | nil => intro last st; simp [replayFileLoop]
  | cons r rest ih =>
    intro last st
    rw [replayFileLoop]
    simp only [replayPacing]
    have h0 : ¬ (0 : ℚ) < 0 := lt_irrefl 0
    rcases last with _ | prev <;>
      simp only [h0, if_false] <;>
      rw [routeFileRecord_trace_indep has _ ReplayFileStats.init] <;>
      simp <;> exact ih _ _

/-- In instant mode, the in-memory replay loop performs no sleeps and its
invocation trace is the concatenation of the per-record routings. -/
lemma replayRecordsLoop_instant {δ : Type} (has : String → Bool) :
    ∀ (records : List (ReplayRecord δ)) (last : Option ℤ)
      (st : ReplayRecordsStats),
    (replayRecordsLoop has 0 last st records).2.1
        = records.flatMap
            (fun r => (routeRecordsRecord has ReplayRecordsStats.init r).2)
    ∧ (replayRecordsLoop has 0 last st records).2.2 = [] := by
  intro records
  induction records with
  | nil => intro last st; simp [replayRecordsLoop]
  | cons r rest ih =>
    intro last st
    rw [replayRecordsLoop]
    simp only [replayPacing]
    have h0 : ¬ (0 : ℚ) < 0 := lt_irrefl 0
    rcases last with _ | prev <;>
      simp only [h0, if_false] <;>
      rw [routeRecordsRecord_trace_indep has _ ReplayRecordsStats.init] <;>
      simp <;> exact ih _ _

/-- Counterexample to C9 as stated: replaying a single
`orderbook`-free `tick` record through `replay_from_records` with every
handler registered invokes no handler at all — in-memory replay only
routes `trade` and `candle`. -/
theorem replay_from_records_drops_tick :
    (replay_from_records (δ := ℕ) [⟨"tick", 0, 5⟩] (fun _ => true) 0).2.1 = []
    ∧ ("on_tick", 5) ∉
        (replay_from_records (δ := ℕ) [⟨"tick", 0, 5⟩] (fun _ => true) 0).2.1 := by
  constructor <;>
    simp [replay_from_records, replayRecordsLoop, routeRecordsRecord,
      replayPacing, ReplayRecordsStats.init]

/-- C9 (amended): during replay there is no event-bus fan-out — the whole
observable trace is handler invocations — and routing is strictly by type
tag: `replay_from_file` invokes, for a record of each of the five kinds,
exactly the single registered handler of that kind and nothing else, while
`replay_from_records` does so only for `trade` and `candle` — records of
the other three kinds invoke no handler there. -/
theorem replay_routes_by_type_tag {δ : Type} (has : String → Bool)
    (records : List (ReplayRecord δ)) (d : δ) (ts : ℤ) :
    (replay_from_file records has 0 none none).2.1
        = records.flatMap (fun r => (routeFileRecord has ReplayFileStats.init r).2)
    ∧ (replay_from_records records has 0).2.1
        = records.flatMap
            (fun r => (routeRecordsRecord has ReplayRecordsStats.init r).2)
    ∧ (routeFileRecord has ReplayFileStats.init ⟨"trade", ts, d⟩).2
        = (if has "on_trade" then [("on_trade", d)] else [])
    ∧ (routeFileRecord has ReplayFileStats.init ⟨"candle", ts, d⟩).2
        = (if has "on_candle" then [("on_candle", d)] else [])
    ∧ (routeFileRecord has ReplayFileStats.init ⟨"tick", ts, d⟩).2
        = (if has "on_tick" then [("on_tick", d)] else [])
    ∧ (routeFileRecord has ReplayFileStats.init ⟨"orderbook_snapshot", ts, d⟩).2
        = (if has "on_orderbook_snapshot" then [("on_orderbook_snapshot", d)]
            else [])
    ∧ (routeFileRecord has ReplayFileStats.init ⟨"orderbook_delta", ts, d⟩).2
        = (if has "on_orderbook_delta" then [("on_orderbook_delta", d)] else [])
    ∧ (routeRecordsRecord has ReplayRecordsStats.init ⟨"trade", ts, d⟩).2
        = (if has "on_trade" then [("on_trade", d)] else [])
    ∧ (routeRecordsRecord has ReplayRecordsStats.init ⟨"candle", ts, d⟩).2
        = (if has "on_candle" then [("on_candle", d)] else [])
    ∧ (routeRecordsRecord has ReplayRecordsStats.init ⟨"tick", ts, d⟩).2 = []
    ∧ (routeRecordsRecord has ReplayRecordsStats.init
          ⟨"orderbook_snapshot", ts, d⟩).2 = []
    ∧ (routeRecordsRecord has ReplayRecordsStats.init
          ⟨"orderbook_delta", ts, d⟩).2 = [] := by
  refine ⟨(replayFileLoop_instant has records none ReplayFileStats.init).1,
    (replayRecordsLoop_instant has records none ReplayRecordsStats.init).1,
    ?_, ?_, ?_, ?_, ?_, ?_, ?_, ?_, ?_, ?_⟩ <;>
    simp [routeFileRecord, routeRecordsRecord]

/-- C10: recording `(trade, 1000, A)` then `(candle, 4000, B)` on a
started recorder yields, at `stop_recording`, exactly those two records in
order with the recorder marked inactive; `start_recording` clears prior
records; `record_event` is a no-op while inactive; and replaying the
returned records at `speed_multiplier = 0` invokes `on_trade(A)` then
`on_candle(B)` with no sleeps and stats `{trades: 1, candles: 1,
total: 2}`. -/
theorem recorder_replay_end_to_end {δ : Type} (s : RecorderState δ) (A B : δ)
    (now : ℤ) (has : String → Bool) (s2 : RecorderState δ)
    (ty : String) (d : δ) (ts : ℤ)
    (hT : has "on_trade" = true) (hC : has "on_candle" = true)
    (hinactive : s2.recording = false) :
    (stop_recording (record_event (record_event (start_recording s now)
        "trade" A 1000) "candle" B 4000)).1
      = [⟨"trade", 1000, A⟩, ⟨"candle", 4000, B⟩]
    ∧ (stop_recording (record_event (record_event (start_recording s now)
        "trade" A 1000) "candle" B 4000)).2.recording = false
    ∧ (start_recording s now).records = []
    ∧ record_event s2 ty d ts = s2
    ∧ replay_from_records
        (stop_recording (record_event (record_event (start_recording s now)
          "trade" A 1000) "candle" B 4000)).1 has 0
      = (⟨1, 1, 2⟩, [("on_trade", A), ("on_candle", B)], []) := by
  refine ⟨?_, ?_, ?_, ?_, ?_⟩
  · simp [start_recording, record_event, stop_recording]
  · simp [stop_recording]
  · simp [start_recording]
  · simp [record_event, hinactive]
  · have hrecs : (stop_recording (record_event (record_event
        (start_recording s now) "trade" A 1000) "candle" B 4000)).1
        = [⟨"trade", 1000, A⟩, ⟨"candle", 4000, B⟩] := by
      simp [start_recording, record_event, stop_recording]
    rw [hrecs]
    simp [replay_from_records, replayRecordsLoop, routeRecordsRecord,
      replayPacing, ReplayRecordsStats.init, hT, hC]

/-- Witness for `recorder_replay_end_to_end` on a fresh recorder over
natural-number payloads with every handler registered. -/
theorem recorder_replay_end_to_end_witness :
    replay_from_records
        (stop_recording (record_event (record_event
          (start_recording (create_replay_recorder ℕ) 0)
          "trade" 1 1000) "candle" 2 4000)).1 (fun _ => true) 0
      = (⟨1, 1, 2⟩, [("on_trade", 1), ("on_candle", 2)], []) :=
  (recorder_replay_end_to_end (create_replay_recorder ℕ) 1 2 0
    (fun _ => true) (create_replay_recorder ℕ) "trade" 0 0
    rfl rfl rfl).2.2.2.2

/-- A run of the backoff-wrapped reconnect closure in which every
websocket connect attempt fails keeps the provider's (already
incremented) reconnect counter intact and reports the last error. -/
lemma backoffGoSt_reconnect_allfail (old : List SubscriptionConfigData)
    (b m : ℕ) :
    ∀ (fuel a : ℕ) (st : BinanceState), 1 ≤ fuel →
    ((backoffGoSt (binanceDoReconnect old (fun _ => false)) b m a fuel
        st).2.2.1.reconnect_count = st.reconnect_count
    ∧ (backoffGoSt (binanceDoReconnect old (fun _ => false)) b m a fuel
        st).2.2.2 = .error (some ())) := by
  intro fuel
  induction fuel with
  | zero => omega
  | succ f ih =>
    intro a st _
    by_cases hf : f = 0
    · subst hf
      simp [backoffGoSt, binanceDoReconnect, connect_binance]
    · rw [backoffGoSt]
      simp only [binanceDoReconnect, connect_binance, Bool.false_eq_true,
        if_false, hf]
      exact ih (a + 1) _ (by omega)

/-- C1 (amended): when a provider's message iteration raises while the
controller is running, the failure branch emits exactly one error event;
with the websocket reconnecting on the first attempt and the pre-failure
subscriptions generating at least one stream, a replacement ingestion task
is spawned, the provider ends connected with its pre-failure subscription
set restored before `reconnect()` signals success, and no backoff sleep
occurs; the reconnect counter is incremented at the start of
`reconnect()` — observable as `old + 1` whenever every connect attempt
fails — but a successful connect resets it, so the health snapshot
observed after a successful `reconnect()` shows 0, not `old + 1`. -/
theorem ingestion_failure_reconnect (p : String) (s : BinanceState)
    (sched : ℕ → Bool) (att b m : ℕ)
    (hatt : 1 ≤ att) (hs : sched 0 = true)
    (hstream : (s.subscriptions.flatMap subscribeStreamsFor).isEmpty = false) :
    (process_messages_failure p true s sched att b m).1.count
        (IngestObs.errorEvent p) = 1
    ∧ (process_messages_failure p true s sched att b m).1
        = [IngestObs.errorEvent p, IngestObs.replacementTask p]
    ∧ (process_messages_failure p true s sched att b m).2.status = "connected"
    ∧ (process_messages_failure p true s sched att b m).2.subscriptions
        = s.subscriptions
    ∧ (get_binance_health
        (process_messages_failure p true s sched att b m).2).reconnect_count = 0
    ∧ (reconnect_binance s sched att b m).1 = []
    ∧ (reconnect_binance s (fun _ => false) att b m).2.2.1.reconnect_count
        = s.reconnect_count + 1
    ∧ (reconnect_binance s (fun _ => false) att b m).2.2.2
        = .error (some ()) := by
  obtain ⟨att', rfl⟩ : ∃ a, att = a + 1 := ⟨att - 1, by omega⟩
  have hold : s.subscriptions ≠ [] := by
    intro h
    rw [h] at hstream
    simp [List.flatMap] at hstream
  have hold' : s.subscriptions.isEmpty = false := by
    cases h : s.subscriptions.isEmpty
    · rfl
    · exact absurd (List.isEmpty_iff.mp h) hold
  have hrec : reconnect_binance s sched (att' + 1) b m =
      ([], 1,
        { name := s.name, status := "connected", ws_session := true,
          http_session := true, ping_task := true,
          subscriptions := s.subscriptions,
          last_message_ms := s.last_message_ms, reconnect_count := 0,
          message_count := s.message_count, error_count := s.error_count,
          rate_limiter := s.rate_limiter },
        .ok ()) := by
    simp only [reconnect_binance, backoffGoSt, binanceDoReconnect,
      connect_binance, disconnect_binance, subscribe_binance, hs, if_true,
      hold', hstream]
    simp [hold', hstream]
  have hfail := backoffGoSt_reconnect_allfail s.subscriptions b m (att' + 1) 0
    ({ disconnect_binance s with
        reconnect_count := s.reconnect_count + 1 }) (by omega)
  refine ⟨?_, ?_, ?_, ?_, ?_, ?_, ?_, ?_⟩
  · simp [process_messages_failure, hrec, List.count_cons]
  · simp [process_messages_failure, hrec]
  · simp [process_messages_failure, hrec]
  · simp [process_messages_failure, hrec]
  · simp [process_messages_failure, hrec, get_binance_health]
  · simp [hrec]
  · rw [reconnect_binance]
    exact hfail.1
  · rw [reconnect_binance]
    exact hfail.2

/-- Witness for `ingestion_failure_reconnect`: a connected provider with
one trade subscription whose stream fails once and reconnects on the
first attempt — one error event, replacement task, subscriptions
restored, reconnect counter reading 0. -/
theorem ingestion_failure_reconnect_witness :
    (process_messages_failure "binance" true
        { name := "binance", status := "connected", ws_session := true,
          http_session := true, ping_task := true,
          subscriptions := [⟨"BTC/USDT", ["trade"], none⟩],
          last_message_ms := none, reconnect_count := 0, message_count := 0,
          error_count := 0, rate_limiter := ⟨10, 10, 0, 10⟩ }
        (fun _ => true) 5 1000 30000).1
      = [IngestObs.errorEvent "binance", IngestObs.replacementTask "binance"] :=
  (ingestion_failure_reconnect "binance"
    { name := "binance", status := "connected", ws_session := true,
      http_session := true, ping_task := true,
      subscriptions := [⟨"BTC/USDT", ["trade"], none⟩],
      last_message_ms := none, reconnect_count := 0, message_count := 0,
      error_count := 0, rate_limiter := ⟨10, 10, 0, 10⟩ }
    (fun _ => true) 5 1000 30000 (by omega) rfl (by decide)).2.1

/-- Counterexample to C1 as stated: a provider with `reconnect_count = 0`
whose `reconnect()` succeeds on the first attempt ends with an observed
`reconnect_count` of 0, not 1 — the successful `connect()` inside
`reconnect()` resets the counter the disconnect phase had just
incremented. -/
theorem reconnect_count_reset_counterexample :
    (reconnect_binance
        { name := "binance", status := "connected", ws_session := true,
          http_session := true, ping_task := true,
          subscriptions := [⟨"BTC/USDT", ["trade"], none⟩],
          last_message_ms := none, reconnect_count := 0, message_count := 0,
          error_count := 0, rate_limiter := ⟨10, 10, 0, 10⟩ }
        (fun _ => true) 5 1000 30000).2.2.2 = .ok ()
    ∧ (get_binance_health (reconnect_binance
        { name := "binance", status := "connected", ws_session := true,
          http_session := true, ping_task := true,
          subscriptions := [⟨"BTC/USDT", ["trade"], none⟩],
          last_message_ms := none, reconnect_count := 0, message_count := 0,
          error_count := 0, rate_limiter := ⟨10, 10, 0, 10⟩ }
        (fun _ => true) 5 1000 30000).2.2.1).reconnect_count = 0
    ∧ (get_binance_health (reconnect_binance
        { name := "binance", status := "connected", ws_session := true,
          http_session := true, ping_task := true,
          subscriptions := [⟨"BTC/USDT", ["trade"], none⟩],
          last_message_ms := none, reconnect_count := 0, message_count := 0,
          error_count := 0, rate_limiter := ⟨10, 10, 0, 10⟩ }
        (fun _ => true) 5 1000 30000).2.2.1).reconnect_count ≠ 0 + 1 := by
  refine ⟨rfl, rfl, by decide⟩

/-- Counterexample to C8 as stated: re-subscribing an already-active
tuple is not a no-op — `subscribe_binance` extends the tracked list
unconditionally, so the tuple is tracked twice afterwards (not "present
exactly once", and the membership list has changed). -/
theorem subscribe_duplicates_counterexample :
    ((subscribe_binance
        { name := "binance", status := "connected", ws_session := true,
          http_session := true, ping_task := true,
          subscriptions := [⟨"BTC/USDT", ["trade"], none⟩],
          last_message_ms := none, reconnect_count := 0, message_count := 0,
          error_count := 0, rate_limiter := ⟨10, 10, 0, 10⟩ }
        [⟨"BTC/USDT", ["trade"], none⟩]).1.subscriptions.count
        ⟨"BTC/USDT", ["trade"], none⟩ = 2)
    ∧ (subscribe_binance
        { name := "binance", status := "connected", ws_session := true,
          http_session := true, ping_task := true,
          subscriptions := [⟨"BTC/USDT", ["trade"], none⟩],
          last_message_ms := none, reconnect_count := 0, message_count := 0,
          error_count := 0, rate_limiter := ⟨10, 10, 0, 10⟩ }
        [⟨"BTC/USDT", ["trade"], none⟩]).1.subscriptions
      ≠ [⟨"BTC/USDT", ["trade"], none⟩] := by
  refine ⟨by decide, by decide⟩

/-- C8 (amended): with the websocket present, `subscribe` is additive but
not idempotent — it appends every given subscription whose kinds generate
at least one stream name, so re-subscribing an active tuple tracks a
duplicate (count + 1) rather than being a no-op — and `unsubscribe`
(which builds stream names only for `trade`/`candle` kinds) removes the
first tracked occurrence of each given tuple: a tuple tracked exactly once
is absent afterwards, and unsubscribing an untracked tuple leaves the
tracked list unchanged. -/
theorem subscription_tracking (s : BinanceState) (sub : SubscriptionConfigData)
    (hws : s.ws_session = true)
    (hsub : (subscribeStreamsFor sub).isEmpty = false)
    (husub : (unsubscribeStreamsFor sub).isEmpty = false) :
    (subscribe_binance s [sub]).1.subscriptions = s.subscriptions ++ [sub]
    ∧ (subscribe_binance s [sub]).1.subscriptions.count sub
        = s.subscriptions.count sub + 1
    ∧ sub ∈ (subscribe_binance s [sub]).1.subscriptions
    ∧ (unsubscribe_binance s [sub]).1.subscriptions = s.subscriptions.erase sub
    ∧ (s.subscriptions.count sub = 1 →
        sub ∉ (unsubscribe_binance s [sub]).1.subscriptions)
    ∧ (sub ∉ s.subscriptions →
        (unsubscribe_binance s [sub]).1.subscriptions = s.subscriptions) := by
  have hsubs : (subscribe_binance s [sub]).1.subscriptions
      = s.subscriptions ++ [sub] := by
    simp only [subscribe_binance, List.flatMap_cons, List.flatMap_nil,
      List.append_nil, hsub, hws]
    simp
  have husubs : (unsubscribe_binance s [sub]).1.subscriptions
      = s.subscriptions.erase sub := by
    simp only [unsubscribe_binance, List.flatMap_cons, List.flatMap_nil,
      List.append_nil, husub, hws]
    simp
  refine ⟨hsubs, ?_, ?_, husubs, ?_, ?_⟩
  · rw [hsubs]
    simp [List.count_append]
  · rw [hsubs]
    simp
  · intro h1
    rw [husubs, ← List.count_pos_iff, List.count_erase_self, h1]
    simp
  · intro hnot
    rw [husubs, List.erase_of_not_mem hnot]

/-- Witness for `subscription_tracking`: unsubscribing the single tracked
trade subscription leaves it untracked. -/
theorem subscription_tracking_witness :
    (⟨"BTC/USDT", ["trade"], none⟩ : SubscriptionConfigData) ∉
      (unsubscribe_binance
        { name := "binance", status := "connected", ws_session := true,
          http_session := true, ping_task := true,
          subscriptions := [⟨"BTC/USDT", ["trade"], none⟩],
          last_message_ms := none, reconnect_count := 0, message_count := 0,
          error_count := 0, rate_limiter := ⟨10, 10, 0, 10⟩ }
        [⟨"BTC/USDT", ["trade"], none⟩]).1.subscriptions :=
  (subscription_tracking
    { name := "binance", status := "connected", ws_session := true,
      http_session := true, ping_task := true,
      subscriptions := [⟨"BTC/USDT", ["trade"], none⟩],
      last_message_ms := none, reconnect_count := 0, message_count := 0,
      error_count := 0, rate_limiter := ⟨10, 10, 0, 10⟩ }
    ⟨"BTC/USDT", ["trade"], none⟩ rfl (by decide) (by decide)).2.2.2.2.1
    (by decide)

end Bargain
